import Mathlib

/-!
Verification development for the TeachWell application core.

The definitions below are shallow embeddings of the stateful logic found in
the repository sources:
  * `src/types.ts`                      — the shared data model;
  * `src/App.tsx`                       — the screen flow controller, the
    journal persistence adapter (localStorage load/save) and `reset`;
  * `src/components/StudyCorner.tsx`    — the `ActivityCard` mission session
    controller (step completion, step image fetching, narration, mission
    completion) and the `getStudyMaterials` post-processing of the service
    response.

Strings are modelled as Lean `String` / `List Char`; machine numbers as `Nat`;
asynchronous external calls (image generation, speech synthesis) as explicit
outcome parameters (`Option _` per call); browser localStorage as an explicit
`Option String` cell threaded through the functions that touch it.
-/

namespace TeachWell

/-! ## Data model (src/types.ts) -/

/-- Type `LocalizedContent` from src/types.ts. -/
structure LocalizedContent where
  original : String
  english : String
deriving DecidableEq, Repr

/-- Type `LocalizedList` from src/types.ts. -/
structure LocalizedList where
  original : List String
  english : List String
deriving DecidableEq, Repr

/-- Type `Activity` from src/types.ts. -/
structure Activity where
  title : LocalizedContent
  topic : LocalizedContent
  objective : LocalizedContent
  materials : LocalizedList
  instructions : LocalizedList
  duration : LocalizedContent
  ageAppropriateness : LocalizedContent
  stepImagePrompts : List String
  parentKnowledge : LocalizedContent
deriving DecidableEq, Repr

/-- The material `type` field, "video" or "audio" in src/types.ts. -/
inductive MaterialType where
  | video
  | audio
deriving DecidableEq, Repr

/-- Type `StudyMaterial` from src/types.ts. -/
structure StudyMaterial where
  title : String
  url : String
  type : MaterialType
deriving DecidableEq, Repr

/-- Type `StudySession` from src/types.ts. -/
structure StudySession where
  summary : List String
  materials : List StudyMaterial
deriving DecidableEq, Repr

/-- Type `ImpactRecord` from src/types.ts.  Field `timestamp` is epoch milliseconds. -/
structure ImpactRecord where
  id : String
  activityTitle : String
  topic : String
  photoUrl : Option String
  timestamp : Nat
  durationMinutes : Nat
deriving DecidableEq, Repr

/-- Type `LoadingState` from src/types.ts. -/
inductive LoadingState where
  | IDLE
  | READING_PDF
  | GENERATING
  | SUCCESS
  | ERROR
deriving DecidableEq, Repr

/-- The `displayLanguage` selector, "original" or "english" in App.tsx. -/
inductive Lang where
  | original
  | english
deriving DecidableEq, Repr

/-- Field selection `lc[displayLanguage]` on a `LocalizedContent`. -/
def locText (lc : LocalizedContent) : Lang → String
  | Lang.original => lc.original
  | Lang.english => lc.english

/-- Field selection `ll[displayLanguage]` on a `LocalizedList`. -/
def locList (ll : LocalizedList) : Lang → List String
  | Lang.original => ll.original
  | Lang.english => ll.english

/-! ## Step completion (ActivityCard in src/components/StudyCorner.tsx)

`completedSteps` is a `boolean[]`; `allDone`, `toggleStep` and the
initialization effect are translated below. -/

/-- Source expression `allDone = completedSteps.length > 0 && completedSteps.every(s => s)`. -/
def allDone (completedSteps : List Bool) : Bool :=
  decide (completedSteps.length > 0) && completedSteps.all (fun s => s)

/-- The `useEffect` on `[activity]`: when the activity has at least one
instruction, `completedSteps` is set to an all-false array of the same
length; otherwise the initial `useState([])` value remains. -/
def initCompletedSteps (a : Activity) : List Bool :=
  if a.instructions.original.length > 0 then
    List.replicate a.instructions.original.length false
  else
    []

/-- Function `toggleStep`: copies the array and flips the entry at `index`. -/
def toggleStep (completedSteps : List Bool) (index : Nat) : List Bool :=
  completedSteps.set index (!(completedSteps.getD index false))

/-! ## Duration parsing (finishMission in src/components/StudyCorner.tsx)

`content.duration.match(/\d+/)` finds the first maximal run of decimal
digits; `parseInt` on the match, default 15 when there is no match. -/

/-- Decimal value of a list of digit characters, most significant first. -/
def digitsToNat (cs : List Char) : Nat :=
  cs.foldl (fun a c => 10 * a + (c.toNat - 48)) 0

/-- The JS regex match `/\d+/` on a character list: the first maximal run of
decimal digits, or `none` when the list has no digit. -/
def firstDigitRun : List Char → Option (List Char)
  | [] => none
  | c :: rest =>
    if c.isDigit then some (c :: rest.takeWhile Char.isDigit)
    else firstDigitRun rest

/-- Source expression `durationMatch ? parseInt(durationMatch[0]) : 15`. -/
def parseDurationMinutes (s : String) : Nat :=
  match firstDigitRun s.data with
  | some run => digitsToNat run
  | none => 15

/-! ## Step image generation (startGuiding in src/components/StudyCorner.tsx)

The loop

    const images = [];
    for (const prompt of activity.stepImagePrompts) {
      try {
        const imgUrl = await generateStepImage(prompt);
        images.push(imgUrl);
        setStepImages([...images]);
      } catch (e) {
        images.push("");
      }
    }

is embedded as a fold over the prompts paired with the outcome of the
`generateStepImage` call issued for each one (`some url` on success, `none`
on a thrown error).  The embedding returns the local `images` array at loop
exit, the list of arrays passed to `setStepImages` (the publish log, in
order), and the list of prompts for which a generation call was issued, in
request order. -/

/-- One generation call per prompt with its outcome. -/
abbrev ImageCall := String × Option String

/-- The image loop, starting from a local `images` array `cur`. -/
def runImagesAux (cur : List String) :
    List ImageCall → List String × List (List String) × List String
  | [] => (cur, [], [])
  | (prompt, outcome) :: rest =>
    match outcome with
    | some url =>
      let cur2 := cur ++ [url]
      let r := runImagesAux cur2 rest
      (r.1, cur2 :: r.2.1, prompt :: r.2.2)
    | none =>
      let r := runImagesAux (cur ++ [""]) rest
      (r.1, r.2.1, prompt :: r.2.2)

/-- The image loop from the initial empty `images` array. -/
def runStepImages (calls : List ImageCall) :
    List String × List (List String) × List String :=
  runImagesAux [] calls

/-- Sub-mode of an `ActivityCard`, "PREP" or "GUIDE". -/
inductive CardMode where
  | PREP
  | GUIDE
deriving DecidableEq, Repr

/-- The component state that `startGuiding` reads and writes. -/
structure GuideState where
  mode : CardMode
  stepImages : List String
  loadingImages : Bool
deriving DecidableEq, Repr

/-- Initial `useState` values of the card: PREP mode, `[]`, `false`. -/
def initGuideState : GuideState :=
  { mode := CardMode.PREP, stepImages := [], loadingImages := false }

/-- Function `startGuiding`, run to completion of its async body.  The guard is the
source condition `stepImages.length === 0 && !loadingImages`.  When the body
runs, the published `stepImages` is the argument of the last `setStepImages`
call (unchanged when no call succeeded, since `setStepImages` is only invoked
on success), and `loadingImages` is reset in the `finally` block.  The second
component counts the generation requests issued. -/
def startGuiding (st : GuideState) (calls : List ImageCall) : GuideState × Nat :=
  if st.stepImages.length = 0 && !st.loadingImages then
    let r := runStepImages calls
    ({ mode := CardMode.GUIDE,
       stepImages := r.2.1.getLastD st.stepImages,
       loadingImages := false }, r.2.2.length)
  else
    ({ st with mode := CardMode.GUIDE }, 0)

/-- The state observed while the first invocation of the loop is still in
flight: `loadingImages` has been set `true` by `setLoadingImages(true)`. -/
def inFlightState (st : GuideState) : GuideState :=
  { st with mode := CardMode.GUIDE, loadingImages := true }

/-! ## Narration (playNarration in src/components/StudyCorner.tsx) -/

/-- The `isReading` state: index of the step currently narrated, if any. -/
structure NarrationState where
  isReading : Option Nat
deriving DecidableEq, Repr

/-- Function `playNarration(text, index)` run to completion of its `try` block.
`outcome` is `some bytes` when `generateSpeech` and audio decoding succeed
and `none` when the `try` block throws.  The second component counts the
speech synthesis requests issued by the call. -/
def playNarration (st : NarrationState) (index : Nat)
    (outcome : Option (List Nat)) : NarrationState × Nat :=
  if st.isReading.isSome then (st, 0)
  else
    match outcome with
    | some _ => ({ isReading := some index }, 1)
    | none => ({ isReading := none }, 1)

/-- The `source.onended` handler: clears the `isReading` marker. -/
def narrationEnded (_st : NarrationState) : NarrationState :=
  { isReading := none }

/-! ## Journal serialization

`App.tsx` persists the journal with `JSON.stringify` and reads it back with
`JSON.parse` inside a try/catch.  Those two primitives belong to the host
runtime, not to this repository, so they are modelled here by a concrete
executable codec with the two properties the application relies on: decoding
an encoded record list returns exactly that list, and decoding a malformed
string fails with `none` (the modelled analogue of `JSON.parse` throwing)
rather than crashing. -/

/-- Decimal digit characters of `n`, most significant first (empty for 0,
which the length-prefixed format below disambiguates with a terminator). -/
def natChars (n : Nat) : List Char :=
  ((Nat.digits 10 n).map (fun d => Char.ofNat (d + 48))).reverse

/-- Modelled from the spec: serialization of a number inside the
`JSON.stringify` output (host runtime, not part of src/): decimal digits
followed by a `:` terminator. -/
def encNat (n : Nat) : List Char :=
  natChars n ++ [':']

/-- Modelled from the spec: parsing of a number inside the `JSON.parse` of
the stored journal (host runtime, not part of src/); fails on malformed
input. -/
def decNat (cs : List Char) : Option (Nat × List Char) :=
  match cs.dropWhile Char.isDigit with
  | ':' :: rest => some (digitsToNat (cs.takeWhile Char.isDigit), rest)
  | _ => none

/-- Modelled from the spec: length-prefixed serialization of a string field
(host runtime, not part of src/). -/
def encStr (s : String) : List Char :=
  encNat s.data.length ++ s.data

/-- Modelled from the spec: parsing of a length-prefixed string field (host
runtime, not part of src/); fails on malformed input. -/
def decStr (cs : List Char) : Option (String × List Char) :=
  match decNat cs with
  | some (n, rest) =>
    if n ≤ rest.length then some (⟨rest.take n⟩, rest.drop n) else none
  | none => none

/-- Modelled from the spec: serialization of the nullable `photoUrl` field. -/
def encPhoto : Option String → List Char
  | none => ['N']
  | some p => 'S' :: encStr p

/-- Modelled from the spec: parsing of the nullable `photoUrl` field. -/
def decPhoto (cs : List Char) : Option (Option String × List Char) :=
  match cs with
  | 'N' :: rest => some (none, rest)
  | 'S' :: rest =>
    match decStr rest with
    | some (p, rest2) => some (some p, rest2)
    | none => none
  | _ => none

/-- Modelled from the spec: serialization of one `ImpactRecord`. -/
def encRecord (r : ImpactRecord) : List Char :=
  encStr r.id ++ encStr r.activityTitle ++ encStr r.topic ++
    encPhoto r.photoUrl ++ encNat r.timestamp ++ encNat r.durationMinutes

/-- Modelled from the spec: parsing of one `ImpactRecord`. -/
def decRecord (cs : List Char) : Option (ImpactRecord × List Char) :=
  match decStr cs with
  | none => none
  | some (i, cs1) =>
    match decStr cs1 with
    | none => none
    | some (title, cs2) =>
      match decStr cs2 with
      | none => none
      | some (top, cs3) =>
        match decPhoto cs3 with
        | none => none
        | some (photo, cs4) =>
          match decNat cs4 with
          | none => none
          | some (ts, cs5) =>
            match decNat cs5 with
            | none => none
            | some (dm, cs6) =>
              some ({ id := i, activityTitle := title, topic := top,
                      photoUrl := photo, timestamp := ts,
                      durationMinutes := dm }, cs6)

/-- Modelled from the spec: serialization of a record sequence body. -/
def encRecList : List ImpactRecord → List Char
  | [] => []
  | r :: rs => encRecord r ++ encRecList rs

/-- Modelled from the spec: parsing of `n` consecutive records. -/
def decRecListAux : Nat → List Char → Option (List ImpactRecord × List Char)
  | 0, cs => some ([], cs)
  | n + 1, cs =>
    match decRecord cs with
    | none => none
    | some (r, rest) =>
      match decRecListAux n rest with
      | none => none
      | some (rs, rest2) => some (r :: rs, rest2)

/-- Modelled from the spec: `JSON.stringify` of the journal (host runtime,
not part of src/): a count followed by each record in order. -/
def encodeRecords (rs : List ImpactRecord) : String :=
  ⟨encNat rs.length ++ encRecList rs⟩

/-- Modelled from the spec: `JSON.parse` of the stored journal (host
runtime, not part of src/); `none` models the parse throwing on a corrupt
value. -/
def decodeRecords (s : String) : Option (List ImpactRecord) :=
  match decNat s.data with
  | none => none
  | some (n, rest) =>
    match decRecListAux n rest with
    | some (rs, []) => some rs
    | _ => none

/-! ## Screen flow and persistence (src/App.tsx) -/

/-- Type `AppScreen` from src/App.tsx. -/
inductive AppScreen where
  | WELCOME
  | UPLOAD
  | PROCESSING
  | CHOICE
  | STUDY
  | RESULTS
  | JOURNAL
deriving DecidableEq, Repr

/-- The durable key-value storage: the single `teachwell_impact` key of
localStorage, `none` when the key is absent. -/
structure AppStorage where
  teachwellImpact : Option String
deriving DecidableEq, Repr

/-- The `App` component state together with the durable storage cell. -/
structure AppState where
  activities : List Activity
  overallTopics : List String
  status : LoadingState
  error : Option String
  displayLanguage : Lang
  appScreen : AppScreen
  selectedPath : Option String
  processingStage : Nat
  studySession : Option StudySession
  loadingStudy : Bool
  impactRecords : List ImpactRecord
  storage : AppStorage

/-- The journal load effect in src/App.tsx: read the stored value; when it
is absent keep the initial `[]`; when it fails to parse, log and keep `[]`
(the catch block only calls `console.error`). -/
def loadImpact (storage : AppStorage) : List ImpactRecord :=
  match storage.teachwellImpact with
  | none => []
  | some s =>
    match decodeRecords s with
    | some rs => rs
    | none => []

/-- Function `saveImpact`: set the in-memory list and overwrite the stored value. -/
def saveImpact (st : AppState) (newRecords : List ImpactRecord) : AppState :=
  { st with impactRecords := newRecords,
            storage := { teachwellImpact := some (encodeRecords newRecords) } }

/-- The payload omitting `id` and `timestamp` from `ImpactRecord` that
`finishMission` hands to `onComplete`. -/
structure ImpactPayload where
  activityTitle : String
  topic : String
  photoUrl : Option String
  durationMinutes : Nat
deriving DecidableEq, Repr

/-- Function `handleActivityComplete`: builds the full record (`id` from
`Math.random`, `timestamp` from `Date.now`, both passed in explicitly
here), prepends it, saves, and moves to the journal screen.  Also returns
the record it produced. -/
def handleActivityComplete (st : AppState) (payload : ImpactPayload)
    (freshId : String) (now : Nat) : AppState × ImpactRecord :=
  let fullRecord : ImpactRecord :=
    { id := freshId, activityTitle := payload.activityTitle,
      topic := payload.topic, photoUrl := payload.photoUrl,
      timestamp := now, durationMinutes := payload.durationMinutes }
  ({ saveImpact st (fullRecord :: st.impactRecords) with
      appScreen := AppScreen.JOURNAL }, fullRecord)

/-- Function `reset` from src/App.tsx. -/
def reset (st : AppState) : AppState :=
  { st with activities := [], overallTopics := [], studySession := none,
            status := LoadingState.IDLE, error := none,
            appScreen := AppScreen.WELCOME }

/-! ## Mission completion (finishMission in src/components/StudyCorner.tsx) -/

/-- Function `finishMission` body: build the completion payload from the displayed
localized content and the captured photo. -/
def finishMission (a : Activity) (lang : Lang) (photo : Option String) :
    ImpactPayload :=
  { activityTitle := locText a.title lang,
    topic := locText a.topic lang,
    photoUrl := photo,
    durationMinutes := parseDurationMinutes (locText a.duration lang) }

/-- The user-level completeMission operation.  In the source the buttons
invoking `finishMission` exist only inside the `allDone && (...)` render
guard, so the operation fires exactly when `allDone` holds; otherwise
nothing happens and no record is produced. -/
def completeMission (a : Activity) (lang : Lang) (completedSteps : List Bool)
    (photo : Option String) (st : AppState) (freshId : String) (now : Nat) :
    AppState × Option ImpactRecord :=
  if allDone completedSteps then
    let r := handleActivityComplete st (finishMission a lang photo) freshId now
    (r.1, some r.2)
  else
    (st, none)

/-! ## Study materials post-processing (getStudyMaterials in the gemini
service of src/components/StudyCorner.tsx) -/

/-- Predicate `listStartsWith pat l` holds when `pat` is an initial segment of `l`. -/
def listStartsWith : List Char → List Char → Bool
  | [], _ => true
  | _ :: _, [] => false
  | p :: ps, c :: cs => p == c && listStartsWith ps cs

/-- Substring containment on character lists (the semantics of an unanchored
JS regex made of a literal string). -/
def containsSub (hay pat : List Char) : Bool :=
  hay.tails.any (fun t => listStartsWith pat t)

/-- The alternatives of the `isVideo` regex `/youtube|vimeo|ted|video|youtu\.be/`. -/
def videoKeywords : List (List Char) :=
  ["youtube".data, "vimeo".data, "ted".data, "video".data, "youtu.be".data]

/-- The alternatives of the `isAudio` regex `/spotify|podcast|soundcloud|apple|audio/`. -/
def audioKeywords : List (List Char) :=
  ["spotify".data, "podcast".data, "soundcloud".data, "apple".data, "audio".data]

/-- Source expression `isVideo = /youtube|vimeo|ted|video|youtu\.be/.test(url)`. -/
def isVideoUrl (url : String) : Bool :=
  videoKeywords.any (fun k => containsSub url.data k)

/-- Source expression `isAudio = /spotify|podcast|soundcloud|apple|audio/.test(url)`. -/
def isAudioUrl (url : String) : Bool :=
  audioKeywords.any (fun k => containsSub url.data k)

/-- The character class removed by the symbol-stripping `replace` call. -/
def isStrippedSymbol (c : Char) : Bool :=
  c == '#' || c == '*' || c == '•' || c == '-' || c == '–' || c == '—' || c == '>'

/-- JS whitespace as used by `trim()` and `\s` (the code points relevant to
this model). -/
def isWsChar (c : Char) : Bool :=
  c == ' ' || c == '\t' || c == '\n' || c == '\r' ||
    c == '\x0b' || c == '\x0c'

/-- Method `trim()` on a character list. -/
def trimChars (cs : List Char) : List Char :=
  ((cs.dropWhile isWsChar).reverse.dropWhile isWsChar).reverse

/-- Method `replace` with pattern of a leading digit run, a dot and trailing
whitespace: remove a leading run of digits followed by a
dot and any whitespace; leave the line unchanged when the pattern does not
match at the start. -/
def stripLeadingNum (cs : List Char) : List Char :=
  match cs.takeWhile Char.isDigit, cs.dropWhile Char.isDigit with
  | [], _ => cs
  | _ :: _, '.' :: rest => rest.dropWhile isWsChar
  | _ :: _, _ => cs

/-- The per-line map chain applied to each line of the raw summary text. -/
def processLine (s : String) : String :=
  ⟨trimChars (stripLeadingNum (trimChars (s.data.filter
      (fun c => !isStrippedSymbol c))))⟩

/-- Method split on newline applied to a character list: the segments between newline
characters, keeping empty segments (JS `String.prototype.split`). -/
def splitNl : List Char → List (List Char)
  | [] => [[]]
  | c :: cs =>
    if c = '\n' then [] :: splitNl cs
    else
      match splitNl cs with
      | [] => [[c]]
      | l :: ls => (c :: l) :: ls

/-- Field `chunk.web` of a grounding chunk: the `uri` and optional `title`. -/
structure WebInfo where
  uri : String
  title : Option String
deriving DecidableEq, Repr

/-- One entry of `groundingMetadata.groundingChunks`. -/
structure GroundingChunk where
  web : Option WebInfo
deriving DecidableEq, Repr

/-- Source expression `chunk.web.title || "TeachWell Resource"` — JS `||` also replaces the
empty string. -/
def titleOrDefault : Option String → String
  | none => "TeachWell Resource"
  | some t => if t.data.length = 0 then "TeachWell Resource" else t

/-- The `chunks.forEach` body: push a video material when the video regex
matches, else an audio material when the audio regex matches, else nothing. -/
def classifyChunk (c : GroundingChunk) : Option StudyMaterial :=
  match c.web with
  | none => none
  | some w =>
    if isVideoUrl w.uri then
      some { title := titleOrDefault w.title, url := w.uri,
             type := MaterialType.video }
    else if isAudioUrl w.uri then
      some { title := titleOrDefault w.title, url := w.uri,
             type := MaterialType.audio }
    else
      none

/-- Function `getStudyMaterials`, given the raw response text and grounding chunks:
summary lines are split on newlines, cleaned, and kept only when longer than
20 characters and free of `http`; materials are the classified chunks,
truncated to 10 by `slice(0, 10)`. -/
def getStudyMaterials (rawText : String) (chunks : List GroundingChunk) :
    StudySession :=
  { summary :=
      (((splitNl rawText.data).map (fun cs => processLine ⟨cs⟩))).filter
        (fun l => decide (20 < l.length) && !containsSub l.data "http".data),
    materials := (chunks.filterMap classifyChunk).take 10 }

/-! ## Concrete fixtures used to instantiate the theorems below -/

/-- A concrete one-step activity. -/
def sampleActivity : Activity :=
  { title := ⟨"Mision", "Mission"⟩,
    topic := ⟨"Ciencia", "Science"⟩,
    objective := ⟨"obj", "obj"⟩,
    materials := ⟨["papel"], ["paper"]⟩,
    instructions := ⟨["Paso uno"], ["Step one"]⟩,
    duration := ⟨"About 15-20 minutes", "About 15-20 minutes"⟩,
    ageAppropriateness := ⟨"5+", "5+"⟩,
    stepImagePrompts := ["a child drawing"],
    parentKnowledge := ⟨"why", "why"⟩ }

/-- A concrete activity with zero instructions. -/
def zeroStepActivity : Activity :=
  { title := ⟨"Vacio", "Empty"⟩,
    topic := ⟨"Tema", "Topic"⟩,
    objective := ⟨"obj", "obj"⟩,
    materials := ⟨[], []⟩,
    instructions := ⟨[], []⟩,
    duration := ⟨"Quick activity", "Quick activity"⟩,
    ageAppropriateness := ⟨"5+", "5+"⟩,
    stepImagePrompts := [],
    parentKnowledge := ⟨"why", "why"⟩ }

/-- A concrete app state on the results screen with an empty journal. -/
def sampleApp : AppState :=
  { activities := [], overallTopics := [], status := LoadingState.IDLE,
    error := none, displayLanguage := Lang.original,
    appScreen := AppScreen.RESULTS, selectedPath := none,
    processingStage := 0, studySession := none, loadingStudy := false,
    impactRecords := [], storage := ⟨none⟩ }

/-- A summary line long enough to be kept and free of `http`. -/
def sampleSummaryLine : String := "This line is long enough to keep around"

/-- A raw service response: one keepable line and one dropped line. -/
def sampleRawText : String :=
  "This line is long enough to keep around\nhttp short"

/-- One grounding chunk with a video URL. -/
def sampleChunks : List GroundingChunk :=
  [{ web := some { uri := "https://youtube.com/watch",
                   title := some "Intro video" } }]

/-- The material produced from `sampleChunks`. -/
def sampleMaterial : StudyMaterial :=
  { title := "Intro video", url := "https://youtube.com/watch",
    type := MaterialType.video }

/-- A concrete journal record. -/
def sampleRecord : ImpactRecord :=
  { id := "abc123xyz", activityTitle := "Mission", topic := "Science",
    photoUrl := none, timestamp := 1700000000000, durationMinutes := 15 }

/-! # Theorems -/

/-! ## Helper lemmas on step completion -/

theorem allDone_iff (l : List Bool) :
    allDone l = true ↔ l ≠ [] ∧ ∀ b ∈ l, b = true := by
  unfold allDone
  rw [Bool.and_eq_true, decide_eq_true_iff, List.all_eq_true]
  constructor
  · rintro ⟨h1, h2⟩
    exact ⟨List.ne_nil_of_length_pos h1, fun b hb => by simpa using h2 b hb⟩
  · rintro ⟨h1, h2⟩
    exact ⟨List.length_pos.mpr h1, fun b hb => by simpa using h2 b hb⟩

theorem length_toggleStep (l : List Bool) (i : Nat) :
    (toggleStep l i).length = l.length := by
  unfold toggleStep
  exact List.length_set ..

theorem getD_set_self : ∀ (l : List Bool) (i : Nat) (b : Bool),
    i < l.length → (l.set i b).getD i false = b
  | [], i, b, h => by simp at h
  | x :: xs, 0, b, _ => rfl
  | x :: xs, i + 1, b, h => by
    have := getD_set_self xs i b (by simpa using h)
    simpa [List.set, List.getD] using this

theorem getD_set_ne : ∀ (l : List Bool) (i j : Nat) (b : Bool),
    j ≠ i → (l.set i b).getD j false = l.getD j false
  | [], _, _, _, _ => by simp [List.set]
  | x :: xs, 0, 0, b, h => absurd rfl h
  | x :: xs, 0, j + 1, b, _ => by simp [List.set, List.getD]
  | x :: xs, i + 1, 0, b, _ => by simp [List.set, List.getD]
  | x :: xs, i + 1, j + 1, b, h => by
    have := getD_set_ne xs i j b (by omega)
    simpa [List.set, List.getD] using this

theorem set_getD_self : ∀ (l : List Bool) (i : Nat),
    i < l.length → l.set i (l.getD i false) = l
  | [], _, h => by simp at h
  | x :: xs, 0, _ => rfl
  | x :: xs, i + 1, h => by
    have := set_getD_self xs i (by simpa using h)
    simpa [List.set, List.getD] using this

theorem set_set_same (l : List Bool) (i : Nat) (a b : Bool) :
    (l.set i a).set i b = l.set i b :=
  List.set_set ..

/-- Claim C2: for every step-completion sequence, `allDone` is true iff the
sequence is non-empty and every element is true; and for an activity with
zero instructions the initialized completion sequence makes `allDone`
false. -/
theorem allDone_iff_nonempty_all_true :
    (∀ l : List Bool, allDone l = true ↔ l ≠ [] ∧ ∀ b ∈ l, b = true) ∧
    (∀ a : Activity, a.instructions.original.length = 0 →
      allDone (initCompletedSteps a) = false) := by
  constructor
  · exact allDone_iff
  · intro a h
    simp [initCompletedSteps, h, allDone]

/-- Witness for C2 at concrete inputs: a fully completed two-step sequence
satisfies `allDone`, and the zero-instruction activity does not. -/
theorem allDone_iff_nonempty_all_true_witness :
    allDone [true, true] = true ∧
    allDone (initCompletedSteps zeroStepActivity) = false := by
  constructor
  · exact (allDone_iff_nonempty_all_true.1 [true, true]).mpr
      ⟨by decide, by decide⟩
  · exact allDone_iff_nonempty_all_true.2 zeroStepActivity (by decide)

/-- Claim C9: for every completion sequence and in-range index, `toggleStep`
applied twice restores the original sequence, and applied once it preserves
the length, flips the entry at the index, and leaves every other position
unchanged. -/
theorem toggleStep_involution :
    ∀ (l : List Bool) (i : Nat), i < l.length →
      toggleStep (toggleStep l i) i = l ∧
      (toggleStep l i).length = l.length ∧
      (toggleStep l i).getD i false = !(l.getD i false) ∧
      ∀ j, j ≠ i → (toggleStep l i).getD j false = l.getD j false := by
  intro l i h
  have hlen : i < (l.set i (!(l.getD i false))).length := by
    simpa using h
  refine ⟨?_, length_toggleStep l i, ?_, ?_⟩
  · show (l.set i (!(l.getD i false))).set i
        (!((l.set i (!(l.getD i false))).getD i false)) = l
    rw [getD_set_self l i (!(l.getD i false)) h, Bool.not_not,
        set_set_same, set_getD_self l i h]
  · exact getD_set_self l i (!(l.getD i false)) h
  · intro j hj
    exact getD_set_ne l i j (!(l.getD i false)) hj

/-- Witness for C9 at a concrete sequence and index. -/
theorem toggleStep_involution_witness :
    0 < [false, true].length ∧
    toggleStep (toggleStep [false, true] 0) 0 = [false, true] ∧
    (toggleStep [false, true] 0).getD 1 false = [false, true].getD 1 false := by
  refine ⟨by decide, (toggleStep_involution [false, true] 0 (by decide)).1, ?_⟩
  exact (toggleStep_involution [false, true] 0 (by decide)).2.2.2 1 (by decide)

/-- Claim C8: from every screen, `reset` moves to WELCOME and clears the
activities, topics, study session, status and error, while leaving both the
in-memory journal and the durable stored value unchanged. -/
theorem reset_clears_session_preserves_journal :
    ∀ st : AppState,
      (reset st).appScreen = AppScreen.WELCOME ∧
      (reset st).activities = [] ∧
      (reset st).overallTopics = [] ∧
      (reset st).studySession = none ∧
      (reset st).status = LoadingState.IDLE ∧
      (reset st).error = none ∧
      (reset st).impactRecords = st.impactRecords ∧
      (reset st).storage = st.storage := by
  intro st
  exact ⟨rfl, rfl, rfl, rfl, rfl, rfl, rfl, rfl⟩

/-- Claim C1: when the step-completion sequence is not non-empty-and-all-
true, `completeMission` produces no record and leaves the app state — in
particular the in-memory journal and the durable storage — unchanged,
regardless of the captured photo. -/
theorem completeMission_rejected_when_not_allDone :
    ∀ (a : Activity) (lang : Lang) (steps : List Bool) (photo : Option String)
      (st : AppState) (freshId : String) (now : Nat),
      ¬(steps ≠ [] ∧ ∀ b ∈ steps, b = true) →
      completeMission a lang steps photo st freshId now = (st, none) ∧
      (completeMission a lang steps photo st freshId now).1.impactRecords
        = st.impactRecords ∧
      (completeMission a lang steps photo st freshId now).1.storage
        = st.storage := by
  intro a lang steps photo st freshId now h
  have hf : allDone steps = false := by
    cases hAD : allDone steps with
    | false => rfl
    | true => exact absurd ((allDone_iff steps).mp hAD) h
  refine ⟨?_, ?_, ?_⟩ <;> simp [completeMission, hf]

/-- Witness for C1: with one incomplete step and a photo present, the
operation yields no record and the sample app state is unchanged. -/
theorem completeMission_rejected_when_not_allDone_witness :
    completeMission sampleActivity Lang.original [false] (some "photo")
      sampleApp "id0" 0 = (sampleApp, none) :=
  (completeMission_rejected_when_not_allDone sampleActivity Lang.original
    [false] (some "photo") sampleApp "id0" 0 (by decide)).1

/-- Claim C6: while a narration is active, `playNarration` for any step is a
no-op issuing no audio request; when idle, a failing request clears the
marker; playback completion clears the marker. -/
theorem narration_exclusive :
    (∀ (st : NarrationState) (i j : Nat) (outcome : Option (List Nat)),
        st.isReading = some j →
        playNarration st i outcome = (st, 0)) ∧
    (∀ (st : NarrationState) (i : Nat),
        st.isReading = none →
        playNarration st i none = ({ isReading := none }, 1)) ∧
    (∀ st : NarrationState,
        narrationEnded st = { isReading := none }) := by
  refine ⟨?_, ?_, ?_⟩
  · intro st i j outcome h
    simp [playNarration, h]
  · intro st i h
    simp [playNarration, h]
  · intro st
    rfl

/-- Witness for C6: a second narration request while step 0 is narrating is
rejected without a new audio request, and a failing request from idle clears
the marker after its single request. -/
theorem narration_exclusive_witness :
    playNarration { isReading := some 0 } 1 (some [1, 2]) =
      ({ isReading := some 0 }, 0) ∧
    playNarration { isReading := none } 1 none = ({ isReading := none }, 1) :=
  ⟨narration_exclusive.1 { isReading := some 0 } 1 0 (some [1, 2]) rfl,
   narration_exclusive.2.1 { isReading := none } 1 rfl⟩

/-! ## Helper lemmas on the step image loop -/

theorem runImagesAux_requested :
    ∀ (calls : List ImageCall) (cur : List String),
      (runImagesAux cur calls).2.2 = calls.map Prod.fst
  | [], _ => rfl
  | (p, outcome) :: rest, cur => by
    cases outcome with
    | some url =>
      simp [runImagesAux, runImagesAux_requested rest (cur ++ [url])]
    | none =>
      simp [runImagesAux, runImagesAux_requested rest (cur ++ [""])]

theorem runImagesAux_length :
    ∀ (calls : List ImageCall) (cur : List String),
      (runImagesAux cur calls).1.length = cur.length + calls.length
  | [], _ => by simp [runImagesAux]
  | (p, outcome) :: rest, cur => by
    cases outcome with
    | some url =>
      have := runImagesAux_length rest (cur ++ [url])
      simp [runImagesAux, this]
      omega
    | none =>
      have := runImagesAux_length rest (cur ++ [""])
      simp [runImagesAux, this]
      omega

theorem runImagesAux_log_entries_ne_nil :
    ∀ (calls : List ImageCall) (cur e : List String),
      e ∈ (runImagesAux cur calls).2.1 → e ≠ []
  | [], _, _, h => by simp [runImagesAux] at h
  | (p, outcome) :: rest, cur, e, h => by
    cases outcome with
    | some url =>
      simp only [runImagesAux, List.mem_cons] at h
      rcases h with h | h
      · subst h
        simp
      · exact runImagesAux_log_entries_ne_nil rest (cur ++ [url]) e h
    | none =>
      exact runImagesAux_log_entries_ne_nil rest (cur ++ [""]) e
        (by simpa [runImagesAux] using h)

theorem runImagesAux_log_ne_nil_of_success :
    ∀ (calls : List ImageCall) (cur : List String),
      (∃ pr ∈ calls, (Prod.snd pr).isSome = true) →
      (runImagesAux cur calls).2.1 ≠ []
  | [], _, h => by simp at h
  | (p, outcome) :: rest, cur, h => by
    cases outcome with
    | some url => simp [runImagesAux]
    | none =>
      have hrest : ∃ pr ∈ rest, (Prod.snd pr).isSome = true := by
        rcases h with ⟨pr, hpr, hsome⟩
        rcases List.mem_cons.mp hpr with heq | hmem
        · subst heq
          simp at hsome
        · exact ⟨pr, hmem, hsome⟩
      exact runImagesAux_log_ne_nil_of_success rest (cur ++ [""]) hrest

theorem getLastD_mem {α : Type} :
    ∀ (l : List α) (d : α), l ≠ [] → l.getLastD d ∈ l
  | [], _, h => absurd rfl h
  | [x], d, _ => by simp [List.getLastD]
  | x :: y :: xs, d, _ => by
    have := getLastD_mem (y :: xs) d (by simp)
    exact List.mem_cons_of_mem x this

/-- Claim C4: the image loop issues one request per prompt in order, its
local array ends with one slot per prompt, and in the concrete
success/failure/success scenario the last published sequence has length 3
with the middle slot empty, the outer slots populated, the two publishes
growing, and exactly the 3 requests issued. -/
theorem stepImages_sequential_best_effort :
    (∀ calls : List ImageCall,
        (runStepImages calls).2.2 = calls.map Prod.fst ∧
        (runStepImages calls).1.length = calls.length) ∧
    (∀ pa pb pc a b : String, a ≠ "" → b ≠ "" →
        (runStepImages [(pa, some a), (pb, none), (pc, some b)]).1
          = [a, "", b] ∧
        (runStepImages [(pa, some a), (pb, none), (pc, some b)]).2.1
          = [[a], [a, "", b]] ∧
        (runStepImages [(pa, some a), (pb, none), (pc, some b)]).2.1.getLastD []
          = [a, "", b] ∧
        ([a, "", b] : List String).length = 3 ∧
        ([a, "", b] : List String).getD 1 "" = "" ∧
        ([a, "", b] : List String).getD 0 "" ≠ "" ∧
        ([a, "", b] : List String).getD 2 "" ≠ "" ∧
        (runStepImages [(pa, some a), (pb, none), (pc, some b)]).2.2
          = [pa, pb, pc]) := by
  constructor
  · intro calls
    exact ⟨runImagesAux_requested calls [],
      by simpa using runImagesAux_length calls []⟩
  · intro pa pb pc a b ha hb
    refine ⟨?_, ?_, ?_, rfl, rfl, ?_, ?_, ?_⟩ <;>
      simp [runStepImages, runImagesAux, List.getLastD, ha, hb]

/-- Witness for C4 at concrete prompts and outcomes. -/
theorem stepImages_sequential_best_effort_witness :
    (runStepImages [("p1", some "u1"), ("p2", none), ("p3", some "u3")]).1
      = ["u1", "", "u3"] ∧
    (runStepImages [("p1", some "u1"), ("p2", none), ("p3", some "u3")]).2.2
      = ["p1", "p2", "p3"] := by
  have h := stepImages_sequential_best_effort.2 "p1" "p2" "p3" "u1" "u3"
    (by decide) (by decide)
  exact ⟨h.1, h.2.2.2.2.2.2.2⟩

/-- Counterexample to C5 as stated: when every generation call of the first
invocation fails, `stepImages` is never published, so re-entering GUIDE runs
the fetch again and issues a new generation request (1, not 0). -/
theorem stepImages_refetch_after_total_failure :
    (startGuiding (startGuiding initGuideState [("p1", none)]).1
        [("p1", none)]).2 = 1 ∧
    ¬(startGuiding (startGuiding initGuideState [("p1", none)]).1
        [("p1", none)]).2 = 0 := by
  constructor
  · rfl
  · intro h
    simp [startGuiding, initGuideState, runStepImages, runImagesAux,
      List.getLastD] at h

/-- Claim C5 (amended): re-entering GUIDE issues no new image-generation
requests while the first invocation is still in flight, and after a
completed invocation that had at least one successful generation; when every
generation of the completed invocation failed, the fetch does restart (see
the counterexample). -/
theorem startGuiding_blocked (st : GuideState) (calls : List ImageCall)
    (h : st.stepImages ≠ [] ∨ st.loadingImages = true) :
    startGuiding st calls = ({ st with mode := CardMode.GUIDE }, 0) := by
  have hcond : (decide (st.stepImages.length = 0) && !st.loadingImages) = false := by
    rcases h with h | h
    · have hne : st.stepImages.length ≠ 0 := fun h0 => h (List.length_eq_zero.mp h0)
      simp [hne]
    · simp [h]
  unfold startGuiding
  rw [hcond]
  rfl

theorem startGuiding_runs (st : GuideState) (calls : List ImageCall)
    (hImg : st.stepImages = []) (hLoad : st.loadingImages = false) :
    startGuiding st calls =
      ({ mode := CardMode.GUIDE,
         stepImages := (runStepImages calls).2.1.getLastD st.stepImages,
         loadingImages := false }, (runStepImages calls).2.2.length) := by
  have hcond : (decide (st.stepImages.length = 0) && !st.loadingImages) = true := by
    simp [hImg, hLoad]
  unfold startGuiding
  rw [hcond]
  rfl

theorem stepImages_no_refetch_inflight_or_after_success :
    (∀ (st : GuideState) (calls : List ImageCall),
        st.loadingImages = true → (startGuiding st calls).2 = 0) ∧
    (∀ (st : GuideState) (calls calls2 : List ImageCall),
        (∃ pr ∈ calls, (Prod.snd pr).isSome = true) →
        (startGuiding (startGuiding st calls).1 calls2).2 = 0) := by
  constructor
  · intro st calls h
    rw [startGuiding_blocked st calls (Or.inr h)]
  · intro st calls calls2 hsucc
    by_cases hImg : st.stepImages = []
    · by_cases hLoad : st.loadingImages = false
      · rw [startGuiding_runs st calls hImg hLoad]
        have hne : (runStepImages calls).2.1.getLastD st.stepImages ≠ [] :=
          runImagesAux_log_entries_ne_nil calls [] _
            (getLastD_mem _ _
              (runImagesAux_log_ne_nil_of_success calls [] hsucc))
        rw [startGuiding_blocked _ calls2 (Or.inl hne)]
      · have hLoad2 : st.loadingImages = true := by
          cases hb : st.loadingImages
          · exact absurd hb hLoad
          · rfl
        rw [startGuiding_blocked st calls (Or.inr hLoad2)]
        show (startGuiding
          (GuideState.mk CardMode.GUIDE st.stepImages st.loadingImages)
          calls2).2 = 0
        rw [startGuiding_blocked
          (GuideState.mk CardMode.GUIDE st.stepImages st.loadingImages)
          calls2 (Or.inr hLoad2)]
    · rw [startGuiding_blocked st calls (Or.inl hImg)]
      show (startGuiding
        (GuideState.mk CardMode.GUIDE st.stepImages st.loadingImages)
        calls2).2 = 0
      rw [startGuiding_blocked
        (GuideState.mk CardMode.GUIDE st.stepImages st.loadingImages)
        calls2 (Or.inl hImg)]

/-- Witness for C5 (amended): with the loading flag set no request is
issued, and after a first invocation whose single call succeeded, a second
entry into GUIDE issues no request. -/
theorem stepImages_no_refetch_inflight_or_after_success_witness :
    (startGuiding (inFlightState initGuideState) [("p1", some "u1")]).2 = 0 ∧
    (startGuiding (startGuiding initGuideState [("p1", some "u1")]).1
        [("p1", some "u1")]).2 = 0 :=
  ⟨stepImages_no_refetch_inflight_or_after_success.1
      (inFlightState initGuideState) [("p1", some "u1")] rfl,
   stepImages_no_refetch_inflight_or_after_success.2
      initGuideState [("p1", some "u1")] [("p1", some "u1")]
      ⟨("p1", some "u1"), by simp, rfl⟩⟩

/-! ## Helper lemmas on duration parsing -/

theorem firstDigitRun_append_of_no_digit :
    ∀ (p l : List Char), (∀ c ∈ p, c.isDigit = false) →
      firstDigitRun (p ++ l) = firstDigitRun l
  | [], _, _ => rfl
  | c :: p, l, h => by
    have hc : c.isDigit = false := h c (List.mem_cons_self c p)
    have hp : ∀ x ∈ p, x.isDigit = false :=
      fun x hx => h x (List.mem_cons_of_mem c hx)
    simp [firstDigitRun, hc, firstDigitRun_append_of_no_digit p l hp]

theorem firstDigitRun_none_of_no_digit :
    ∀ l : List Char, (∀ c ∈ l, c.isDigit = false) → firstDigitRun l = none
  | [], _ => rfl
  | c :: l, h => by
    have hc : c.isDigit = false := h c (List.mem_cons_self c l)
    have hl : ∀ x ∈ l, x.isDigit = false :=
      fun x hx => h x (List.mem_cons_of_mem c hx)
    simp [firstDigitRun, hc, firstDigitRun_none_of_no_digit l hl]

theorem takeWhile_append_of_all {p : Char → Bool} :
    ∀ (xs ys : List Char), (∀ x ∈ xs, p x = true) →
      List.takeWhile p (xs ++ ys) = xs ++ List.takeWhile p ys
  | [], _, _ => rfl
  | x :: xs, ys, h => by
    have hx : p x = true := h x (List.mem_cons_self x xs)
    have hxs : ∀ c ∈ xs, p c = true :=
      fun c hc => h c (List.mem_cons_of_mem x hc)
    simp [List.takeWhile_cons, hx, takeWhile_append_of_all xs ys hxs]

theorem takeWhile_eq_nil_of_head {p : Char → Bool} :
    ∀ t : List Char, (∀ c, t.head? = some c → p c = false) →
      List.takeWhile p t = []
  | [], _ => rfl
  | c :: t, h => by
    have hc : p c = false := h c rfl
    simp [List.takeWhile_cons, hc]

/-- Claim C3: for every duration string, the parsed minutes equal the
decimal value of the first maximal run of digits, and 15 when the string has
no digit; the three spec examples evaluate accordingly. -/
theorem durationMinutes_first_digit_run :
    (∀ s : String, (∀ c ∈ s.data, c.isDigit = false) →
        parseDurationMinutes s = 15) ∧
    (∀ (s : String) (p r t : List Char), s.data = p ++ r ++ t →
        (∀ c ∈ p, c.isDigit = false) → r ≠ [] →
        (∀ c ∈ r, c.isDigit = true) →
        (∀ c, t.head? = some c → c.isDigit = false) →
        parseDurationMinutes s = digitsToNat r) ∧
    parseDurationMinutes "About 15-20 minutes" = 15 ∧
    parseDurationMinutes "Quick activity" = 15 ∧
    parseDurationMinutes "45 mins" = 45 := by
  refine ⟨?_, ?_, by decide, by decide, by decide⟩
  · intro s h
    unfold parseDurationMinutes
    rw [firstDigitRun_none_of_no_digit s.data h]
  · intro s p r t hs hp hr hrd ht
    unfold parseDurationMinutes
    rw [hs, List.append_assoc, firstDigitRun_append_of_no_digit p (r ++ t) hp]
    cases r with
    | nil => exact absurd rfl hr
    | cons d r2 =>
      have hd : d.isDigit = true := hrd d (List.mem_cons_self d r2)
      have hr2 : ∀ c ∈ r2, c.isDigit = true :=
        fun c hc => hrd c (List.mem_cons_of_mem d hc)
      simp only [List.cons_append, firstDigitRun, hd, if_true, List.append_eq]
      rw [takeWhile_append_of_all r2 t hr2, takeWhile_eq_nil_of_head t ht,
        List.append_nil]

/-- Witness for C3: the general first-digit-run rule applied at the concrete
string "45 mins", and the no-digit rule at "Quick activity". -/
theorem durationMinutes_first_digit_run_witness :
    parseDurationMinutes "45 mins" = digitsToNat ['4', '5'] ∧
    parseDurationMinutes "Quick activity" = 15 := by
  constructor
  · exact durationMinutes_first_digit_run.2.1 "45 mins" [] ['4', '5']
      [' ', 'm', 'i', 'n', 's'] (by decide) (by decide) (by decide)
      (by decide) (by decide)
  · exact durationMinutes_first_digit_run.1 "Quick activity" (by decide)

/-- Claim C10: the study session built from a service response has at most
10 materials; each material type is video when a video keyword matches
its URL, else audio with an audio keyword matching (URLs matching neither
are dropped); and every kept summary line is longer than 20 characters and
free of the substring `http`. -/
theorem getStudyMaterials_postconditions :
    ∀ (rawText : String) (chunks : List GroundingChunk),
      (getStudyMaterials rawText chunks).materials.length ≤ 10 ∧
      (∀ m ∈ (getStudyMaterials rawText chunks).materials,
          (isVideoUrl m.url = true → m.type = MaterialType.video) ∧
          (isVideoUrl m.url = false →
            m.type = MaterialType.audio ∧ isAudioUrl m.url = true)) ∧
      (∀ l ∈ (getStudyMaterials rawText chunks).summary,
          20 < l.length ∧ containsSub l.data "http".data = false) := by
  intro rawText chunks
  refine ⟨?_, ?_, ?_⟩
  · show ((chunks.filterMap classifyChunk).take 10).length ≤ 10
    rw [List.length_take]
    exact min_le_left ..
  · intro m hm
    have hm2 : m ∈ chunks.filterMap classifyChunk :=
      List.take_subset 10 _ hm
    rcases List.mem_filterMap.mp hm2 with ⟨c, _, hcm⟩
    unfold classifyChunk at hcm
    cases hw : c.web with
    | none =>
      rw [hw] at hcm
      cases hcm
    | some w =>
      rw [hw] at hcm
      dsimp only at hcm
      cases hv : isVideoUrl w.uri with
      | true =>
        rw [if_pos hv] at hcm
        cases hcm
        constructor
        · intro _
          rfl
        · intro hfalse
          rw [hv] at hfalse
          cases hfalse
      | false =>
        rw [if_neg (by simp [hv])] at hcm
        cases ha : isAudioUrl w.uri with
        | true =>
          rw [if_pos ha] at hcm
          cases hcm
          constructor
          · intro htrue
            rw [hv] at htrue
            cases htrue
          · intro _
            exact ⟨rfl, ha⟩
        | false =>
          rw [if_neg (by simp [ha])] at hcm
          cases hcm
  · intro l hl
    have hpred := (List.mem_filter.mp hl).2
    rcases Bool.and_eq_true .. |>.mp hpred with ⟨h1, h2⟩
    exact ⟨by simpa using h1, by simpa using h2⟩

/-- Witness for C10 at a concrete response: the sample material is typed
video from its matching URL, and the sample kept line satisfies both
summary conditions. -/
theorem getStudyMaterials_postconditions_witness :
    (getStudyMaterials sampleRawText sampleChunks).materials.length ≤ 10 ∧
    sampleMaterial.type = MaterialType.video ∧
    20 < sampleSummaryLine.length ∧
    containsSub sampleSummaryLine.data "http".data = false := by
  refine ⟨(getStudyMaterials_postconditions sampleRawText sampleChunks).1,
    ?_, ?_, ?_⟩
  · exact ((getStudyMaterials_postconditions sampleRawText sampleChunks).2.1
      sampleMaterial (by decide)).1 (by decide)
  · exact ((getStudyMaterials_postconditions sampleRawText sampleChunks).2.2
      sampleSummaryLine (by decide)).1
  · exact ((getStudyMaterials_postconditions sampleRawText sampleChunks).2.2
      sampleSummaryLine (by decide)).2

/-! ## Helper lemmas on the journal codec -/

theorem dropWhile_append_of_all {p : Char → Bool} :
    ∀ (xs ys : List Char), (∀ x ∈ xs, p x = true) →
      List.dropWhile p (xs ++ ys) = List.dropWhile p ys
  | [], _, _ => rfl
  | x :: xs, ys, h => by
    have hx : p x = true := h x (List.mem_cons_self x xs)
    have hxs : ∀ c ∈ xs, p c = true :=
      fun c hc => h c (List.mem_cons_of_mem x hc)
    simp [List.dropWhile_cons, hx, dropWhile_append_of_all xs ys hxs]

theorem natChars_all_digit (n : Nat) : ∀ c ∈ natChars n, c.isDigit = true := by
  intro c hc
  rcases List.mem_map.mp (List.mem_reverse.mp hc) with ⟨d, hd, rfl⟩
  have hd10 : d < 10 := Nat.digits_lt_base (by norm_num) hd
  interval_cases d <;> decide

theorem digitsToNat_natChars (n : Nat) : digitsToNat (natChars n) = n := by
  have key : ∀ ds : List Nat, (∀ d ∈ ds, d < 10) →
      List.foldr (fun c a => 10 * a + (c.toNat - 48)) 0
        (ds.map (fun d => Char.ofNat (d + 48))) = Nat.ofDigits 10 ds := by
    intro ds
    induction ds with
    | nil =>
      intro _
      simp [Nat.ofDigits_nil]
    | cons d tl ih =>
      intro h
      have hd : d < 10 := h d (List.mem_cons_self d tl)
      have htl := ih (fun x hx => h x (List.mem_cons_of_mem d hx))
      have hchar : (Char.ofNat (d + 48)).toNat - 48 = d := by
        interval_cases d <;> decide
      simp only [List.map_cons, List.foldr_cons, htl, hchar,
        Nat.ofDigits_cons]
      omega
  unfold digitsToNat natChars
  rw [List.foldl_reverse]
  exact (key (Nat.digits 10 n)
      (fun d hd => Nat.digits_lt_base (by norm_num) hd)).trans
    (Nat.ofDigits_digits 10 n)

theorem decNat_enc (n : Nat) (rest : List Char) :
    decNat (encNat n ++ rest) = some (n, rest) := by
  have hall : ∀ c ∈ natChars n, Char.isDigit c = true := natChars_all_digit n
  have hcolon : (':' : Char).isDigit = false := by decide
  unfold encNat
  rw [List.append_assoc]
  show decNat (natChars n ++ (':' :: rest)) = some (n, rest)
  unfold decNat
  rw [dropWhile_append_of_all (natChars n) (':' :: rest) hall,
      takeWhile_append_of_all (natChars n) (':' :: rest) hall]
  simp [List.dropWhile_cons, List.takeWhile_cons, hcolon,
    digitsToNat_natChars]

theorem decStr_enc (s : String) (rest : List Char) :
    decStr (encStr s ++ rest) = some (s, rest) := by
  unfold decStr encStr
  rw [List.append_assoc, decNat_enc s.data.length (s.data ++ rest)]
  have hle : s.data.length ≤ (s.data ++ rest).length := by
    rw [List.length_append]
    omega
  dsimp only
  rw [if_pos hle, List.take_left, List.drop_left]

theorem decPhoto_enc (p : Option String) (rest : List Char) :
    decPhoto (encPhoto p ++ rest) = some (p, rest) := by
  cases p with
  | none => rfl
  | some s =>
    show decPhoto ('S' :: (encStr s ++ rest)) = some (some s, rest)
    simp only [decPhoto, decStr_enc]

theorem decRecord_enc (r : ImpactRecord) (rest : List Char) :
    decRecord (encRecord r ++ rest) = some (r, rest) := by
  unfold decRecord encRecord
  simp only [List.append_assoc]
  rw [decStr_enc]
  dsimp only
  rw [decStr_enc]
  dsimp only
  rw [decStr_enc]
  dsimp only
  rw [decPhoto_enc]
  dsimp only
  rw [decNat_enc]
  dsimp only
  rw [decNat_enc]

theorem decRecListAux_enc :
    ∀ (rs : List ImpactRecord) (rest : List Char),
      decRecListAux rs.length (encRecList rs ++ rest) = some (rs, rest)
  | [], rest => rfl
  | r :: rs, rest => by
    show decRecListAux (rs.length + 1) ((encRecord r ++ encRecList rs) ++ rest)
      = some (r :: rs, rest)
    rw [List.append_assoc]
    unfold decRecListAux
    rw [decRecord_enc]
    dsimp only
    rw [decRecListAux_enc rs rest]

theorem decodeRecords_enc (rs : List ImpactRecord) :
    decodeRecords (encodeRecords rs) = some rs := by
  unfold decodeRecords encodeRecords
  rw [show (String.mk (encNat rs.length ++ encRecList rs)).data
      = encNat rs.length ++ encRecList rs from rfl]
  rw [decNat_enc]
  dsimp only
  have h2 := decRecListAux_enc rs []
  rw [List.append_nil] at h2
  rw [h2]

/-- Claim C7: saving the previously loaded journal with one new record
prepended and loading again returns exactly that sequence in order; an
absent stored value loads as the empty sequence; and a stored value that
fails to parse loads as the empty sequence (the embedding is total, so no
error is raised). -/
theorem journal_roundtrip_and_recovery :
    (∀ (st : AppState) (r : ImpactRecord),
        loadImpact (saveImpact st (r :: loadImpact st.storage)).storage
          = r :: loadImpact st.storage) ∧
    loadImpact { teachwellImpact := none } = [] ∧
    (∀ s : String, decodeRecords s = none →
        loadImpact { teachwellImpact := some s } = []) := by
  refine ⟨?_, rfl, ?_⟩
  · intro st r
    show loadImpact
        { teachwellImpact :=
            some (encodeRecords (r :: loadImpact st.storage)) }
      = r :: loadImpact st.storage
    unfold loadImpact
    dsimp only
    rw [decodeRecords_enc]
  · intro s h
    unfold loadImpact
    dsimp only
    rw [h]

/-- Witness for C7: a concrete save-then-load round trip on the sample app
state, and recovery from the concrete corrupt stored value "garbage". -/
theorem journal_roundtrip_and_recovery_witness :
    loadImpact (saveImpact sampleApp
        (sampleRecord :: loadImpact sampleApp.storage)).storage
      = sampleRecord :: loadImpact sampleApp.storage ∧
    loadImpact { teachwellImpact := some "garbage" } = [] :=
  ⟨journal_roundtrip_and_recovery.1 sampleApp sampleRecord,
   journal_roundtrip_and_recovery.2.2 "garbage" (by decide)⟩

end TeachWell
